import Mathlib

/-!
# Oryol samples: ArrayTexture and FullscreenQuad

A shallow embedding of `code/Samples/ArrayTexture/ArrayTexture.cc` and
`code/Samples/FullscreenQuad/FullscreenQuad.cc`.

* Every lifecycle callback is a pure function from what the engine answers
  during the call (`Engine`) and the application object to a `Step`: the new
  application object, the log of calls in program order, and the returned
  `AppState.Code`.
* `float` arithmetic is read over exact rationals (`ℚ`); glm matrix functions
  are kept as uninterpreted constructors of `Mat4`.
* `int frameIndex` is a 32-bit two's complement integer (`wrapInt32`),
  `std::size_t` arithmetic is carried out modulo `2 ^ sizeBits`, `uint8_t`
  conversions modulo `256`.
-/

namespace Oryol

/-! ## Engine facade: values -/

/-- Opaque engine resource handle. -/
abbrev Id := Nat

abbrev Vec2 := ℚ × ℚ
abbrev Vec3 := ℚ × ℚ × ℚ
abbrev Vec4 := ℚ × ℚ × ℚ × ℚ

/-- Angle as produced by `glm::radians d`: the angle of `d` degrees
(its radian value is `d * π / 180`). -/
structure Angle where
  degrees : ℚ
deriving DecidableEq

/-- The function `glm::radians`. -/
def radians (d : ℚ) : Angle := ⟨d⟩

/-- Matrices built by glm calls, kept as expression trees. -/
inductive Mat4 where
  | ctor : Mat4
  | perspectiveFov (fov : Angle) (width height zNear zFar : ℚ) : Mat4
  | translate (m : Mat4) (v : Vec3) : Mat4
  | rotate (m : Mat4) (angle : Angle) (axis : Vec3) : Mat4
  | mul (a b : Mat4) : Mat4
deriving DecidableEq

/-- Modelled from the spec: the engine type `PrimitiveGroup`, declared
outside the samples; a (start, count) range into the vertex/index buffers. -/
structure PrimitiveGroup where
  BaseElement : Int
  NumElements : Int
deriving DecidableEq

/-- Modelled from the spec: the engine type `DrawState`, declared outside the
samples; the aggregate of a pipeline handle, a vertex buffer handle, an index
buffer handle and a texture handle. A handle that was never assigned is
`none`. -/
structure DrawState where
  Pipeline : Option Id
  VertexBuffers0 : Option Id
  IndexBuffer : Option Id
  FSTexture : Option Id
deriving DecidableEq

/-- Modelled from the spec: the enum `AppState::Code`, declared outside the
samples. `Running` and `Cleanup` are the values the samples name, `Init` is
the state in which `OnInit` is invoked, `Destroy` is the terminal status. -/
inductive AppState.Code where
  | Init
  | Running
  | Cleanup
  | Destroy
deriving DecidableEq

/-! ## The checkerboard generator of `ArrayTextureApp::OnInit` -/

/-- A C `for (int i = 0; i < n; i++) body`, run from state `s`. -/
def forLoop {σ : Type} (body : Nat → σ → σ) : Nat → σ → σ
  | 0, s => s
  | n + 1, s => body n (forLoop body n s)

def numLayers : Nat := 3
def width : Nat := 16
def height : Nat := 16

/-- The local array `uint32_t data[numLayers][height][width]`; a texel that
was never written is `none`. -/
abbrev Texels := Nat → Nat → Nat → Option Nat

/-- Assignment `data[layer][y][x] = v`. -/
def Texels.set (data : Texels) (layer y x v : Nat) : Texels :=
  fun l r c => if l = layer ∧ r = y ∧ c = x then some v else data l r c

/-- The variables the three nested loops update. -/
structure Checker where
  data : Texels
  evenOdd : Nat

/-- Body of the innermost loop together with its `evenOdd++`. -/
def texelBody (layer y x : Nat) (s : Checker) : Checker :=
  let data :=
    if s.evenOdd &&& 1 ≠ 0 then
      match layer with
      | 0 => s.data.set layer y x 0xFF0000FF
      | 1 => s.data.set layer y x 0xFF00FF00
      | 2 => s.data.set layer y x 0xFFFF0000
      | _ => s.data
    else
      s.data.set layer y x 0
  { data := data, evenOdd := s.evenOdd + 1 }

/-- The loop over `x`, followed by the `evenOdd++` of the loop over `y`. -/
def rowBody (layer y : Nat) (s : Checker) : Checker :=
  let s1 := forLoop (texelBody layer y) width s
  { s1 with evenOdd := s1.evenOdd + 1 }

/-- The loop over `y`, followed by the `evenOdd++` of the loop over `layer`. -/
def layerBody (layer : Nat) (s : Checker) : Checker :=
  let s1 := forLoop (rowBody layer) height s
  { s1 with evenOdd := s1.evenOdd + 1 }

/-- The state of the loops before the first iteration: `data` uninitialised,
`evenOdd = 0`. -/
def checkerInit : Checker := { data := fun _ _ _ => none, evenOdd := 0 }

/-- The three nested loops of `OnInit`. -/
def checkerboard : Checker := forLoop layerBody numLayers checkerInit

/-- The state of the loops when the body of the innermost loop is entered for
`data[L][Y][X]`. -/
def checkerAt (L Y X : Nat) : Checker :=
  forLoop (texelBody L Y) X (forLoop (rowBody L) Y (forLoop layerBody L checkerInit))

/-- Specification side: the colour table `C` of the three layers. -/
def layerColor : Nat → Nat
  | 0 => 0xFF0000FF
  | 1 => 0xFF00FF00
  | _ => 0xFFFF0000

/-- Specification side: the value a texel of `layer` holds when the running
counter is `e` at the time it is written. -/
def texelValue (layer e : Nat) : Nat :=
  if e % 2 = 1 then layerColor layer else 0


/-- The bytes handed to the texture: `data` in memory order. -/
def Texels.content (data : Texels) : List (Option Nat) :=
  (List.range numLayers).flatMap fun l =>
    (List.range height).flatMap fun y =>
      (List.range width).map fun x => data l y x

/-! ## Engine facade: calls -/

/-- Build configuration: the flag `ORYOL_EMSCRIPTEN` and the width in bits of
`std::size_t`. -/
structure Build where
  emscripten : Bool
  sizeBits : Nat

/-- What the engine answers during one lifecycle callback: the feature query,
the display attributes (the framebuffer size in pixels, never negative), the
quit signal, and the handles and the shape its creation calls return. -/
structure Engine where
  TextureArray : Bool
  FramebufferWidth : Nat
  FramebufferHeight : Nat
  QuitRequested : Bool
  texture : Id
  vertexBuffer : Id
  indexBuffer : Id
  shader : Id
  pipeline : Id
  shapePrimGroup : PrimitiveGroup

/-- The block `Shader::vsParams` of the ArrayTexture sample. -/
structure VsParams where
  mvp : Mat4
  uvOffset0 : Vec2
  uvOffset1 : Vec2
  uvOffset2 : Vec2
deriving DecidableEq

/-- The block `Shader::params` of the FullscreenQuad sample. -/
structure Params where
  time : ℚ
deriving DecidableEq

inductive UniformBlock where
  | vsParams (p : VsParams)
  | params (p : Params)
deriving DecidableEq

/-- The calls a callback makes, in program order: the calls into the `Gfx`,
`Dbg` and `ShapeBuilder` facades, and the call of the member
`computeShaderParams`. Modelled from the spec: the engine's begin-pass takes
an optional clear colour; `BeginPass (some c)` is
`Gfx::BeginPass(PassAction::Clear(c))`, `BeginPass none` is `Gfx::BeginPass()`. -/
inductive Call where
  | GfxSetup (width height : Nat) (msaa4 : Bool) (title : String)
  | DbgSetup
  | QueryFeature
  | CreateTexture (width height layers : Nat) (content : List (Option Nat))
  | ShapeBuild
  | CreateVertexBuffer
  | CreateIndexBuffer
  | CreateShader
  | CreatePipeline
  | DisplayAttrs
  | computeShaderParams
  | BeginPass (clear : Option Vec4)
  | ApplyDrawState (ds : DrawState)
  | ApplyUniformBlock (ub : UniformBlock)
  | Draw (pg : PrimitiveGroup)
  | EndPass
  | CommitFrame
  | QuitRequested
  | TextScale (x y : ℚ)
  | CursorPos (x y : Nat)
  | Print (msg : String)
  | DrawTextBuffer
  | DbgDiscard
  | GfxDiscard
deriving DecidableEq

def Call.isBeginPass : Call → Bool
  | .BeginPass _ => true
  | _ => false

def Call.isEndPass : Call → Bool
  | .EndPass => true
  | _ => false

def Call.isCommitFrame : Call → Bool
  | .CommitFrame => true
  | _ => false

/-- The text-drawing calls of the `Dbg` facade. -/
def Call.isText : Call → Bool
  | .TextScale _ _ => true
  | .CursorPos _ _ => true
  | .Print _ => true
  | .DrawTextBuffer => true
  | _ => false

/-- The calls of the textured-cube path that the fallback path must not make. -/
def Call.isGeometry : Call → Bool
  | .ApplyDrawState _ => true
  | .ApplyUniformBlock _ => true
  | .Draw _ => true
  | .computeShaderParams => true
  | _ => false

/-- The calls after the first `BeginPass` up to, not including, the next
`EndPass`. -/
def passBody (calls : List Call) : List Call :=
  ((calls.dropWhile fun c => !c.isBeginPass).drop 1).takeWhile fun c => !c.isEndPass

/-- Result of one lifecycle callback: the application object afterwards, the
calls made, and the returned status. -/
structure Step (σ : Type) where
  app : σ
  calls : List Call
  code : AppState.Code

/-- Modelled from the spec: the base-class method `App::OnInit`, whose body is
not part of the samples; it returns the status signalling "continue to
Running". -/
def App.OnInit : AppState.Code := AppState.Code.Running

/-- Modelled from the spec: the base-class method `App::OnCleanup`, whose body
is not part of the samples; it returns the terminal status. -/
def App.OnCleanup : AppState.Code := AppState.Code.Destroy

/-! ## Machine arithmetic -/

/-- Value of an `int` after an operation whose mathematical result is `v`
(32-bit two's complement). -/
def wrapInt32 (v : Int) : Int := (v + 2 ^ 31) % 2 ^ 32 - 2 ^ 31

/-- Subtraction `a - b` of two `std::size_t` values of `w` bits. -/
def sizeSub (w a b : Nat) : Nat := (a % 2 ^ w + 2 ^ w - b % 2 ^ w) % 2 ^ w

/-- Conversion to `uint8_t`. -/
def toUInt8 (v : Nat) : Nat := v % 256

/-! ## ArrayTexture sample -/

/-- The data members of `class ArrayTextureApp`. -/
structure ArrayTextureApp where
  primGroup : PrimitiveGroup
  drawState : DrawState
  frameIndex : Int
  proj : Mat4

namespace ArrayTextureApp

/-- The object as constructed by `OryolMain`: default-constructed members and
`int frameIndex = 0`. -/
def construct : ArrayTextureApp :=
  { primGroup := ⟨0, 0⟩, drawState := ⟨none, none, none, none⟩, frameIndex := 0,
    proj := Mat4.ctor }

def OnInit (e : Engine) (s : ArrayTextureApp) : Step ArrayTextureApp :=
  let setup := [Call.GfxSetup 800 512 true "Array Texture Sample", Call.DbgSetup,
    Call.QueryFeature]
  if !e.TextureArray then
    { app := s, calls := setup, code := App.OnInit }
  else
    let data := checkerboard.data
    let drawState1 := { s.drawState with FSTexture := some e.texture }
    let primGroup := e.shapePrimGroup
    let drawState2 := { drawState1 with VertexBuffers0 := some e.vertexBuffer }
    let drawState3 := { drawState2 with IndexBuffer := some e.indexBuffer }
    let drawState4 := { drawState3 with Pipeline := some e.pipeline }
    let fbWidth : ℚ := e.FramebufferWidth
    let fbHeight : ℚ := e.FramebufferHeight
    let proj := Mat4.perspectiveFov (radians 45.0) fbWidth fbHeight 0.01 100.0
    { app := { s with primGroup := primGroup, drawState := drawState4, proj := proj },
      calls := setup ++ [Call.CreateTexture width height numLayers data.content,
        Call.ShapeBuild, Call.CreateVertexBuffer, Call.CreateIndexBuffer, Call.CreateShader,
        Call.CreatePipeline, Call.DisplayAttrs, Call.DisplayAttrs],
      code := App.OnInit }

def computeShaderParams (s : ArrayTextureApp) : VsParams :=
  let offset : ℚ := (s.frameIndex : ℚ) * 0.001
  let uvOffset0 : Vec2 := (offset, -offset)
  let uvOffset1 : Vec2 := (-offset, offset)
  let uvOffset2 : Vec2 := (0.0, 0.0)
  let cubePos : Vec3 := (0.0, 0.0, -2.5)
  let angleX := radians (0.25 * (s.frameIndex : ℚ))
  let angleY := radians (0.2 * (s.frameIndex : ℚ))
  let model := Mat4.translate Mat4.ctor cubePos
  let model := Mat4.rotate model angleX (1.0, 0.0, 0.0)
  let model := Mat4.rotate model angleY (0.0, 1.0, 0.0)
  { mvp := Mat4.mul s.proj model, uvOffset0 := uvOffset0, uvOffset1 := uvOffset1,
    uvOffset2 := uvOffset2 }

/-- The warning text of `notSupported`. -/
def msg (b : Build) : String :=
  if b.emscripten then "This demo needs WebGL2\n"
  else "This demo needs array texture support\n"

/-- The local `x` of `notSupported`: the cursor column. The difference is
taken in `std::size_t`, to which the `int` quotient is converted. -/
def notSupported.x (b : Build) (e : Engine) : Nat :=
  toUInt8 (sizeSub b.sizeBits (e.FramebufferWidth / 16) (msg b).length / 2)

/-- The local `y` of `notSupported`: the cursor row. -/
def notSupported.y (e : Engine) : Nat :=
  toUInt8 (e.FramebufferHeight / 16 / 2)

def notSupported (b : Build) (e : Engine) (s : ArrayTextureApp) : Step ArrayTextureApp :=
  let x := notSupported.x b e
  let y := notSupported.y e
  { app := s,
    calls := [Call.DisplayAttrs, Call.DisplayAttrs,
      Call.BeginPass (some (0.5, 0.0, 0.0, 1.0)), Call.TextScale 2.0 2.0, Call.CursorPos x y,
      Call.Print (msg b), Call.DrawTextBuffer, Call.EndPass, Call.CommitFrame,
      Call.QuitRequested],
    code := if e.QuitRequested then AppState.Code.Cleanup else AppState.Code.Running }

def OnRunning (b : Build) (e : Engine) (s : ArrayTextureApp) : Step ArrayTextureApp :=
  if !e.TextureArray then
    let r := notSupported b e s
    { r with calls := Call.QueryFeature :: r.calls }
  else
    let vsParams := computeShaderParams s
    { app := { s with frameIndex := wrapInt32 (s.frameIndex + 1) },
      calls := [Call.QueryFeature, Call.computeShaderParams,
        Call.BeginPass (some (0.2, 0.2, 0.3, 1.0)), Call.ApplyDrawState s.drawState,
        Call.ApplyUniformBlock (UniformBlock.vsParams vsParams), Call.Draw s.primGroup,
        Call.EndPass, Call.CommitFrame, Call.QuitRequested],
      code := if e.QuitRequested then AppState.Code.Cleanup else AppState.Code.Running }

def OnCleanup (_e : Engine) (s : ArrayTextureApp) : Step ArrayTextureApp :=
  { app := s, calls := [Call.DbgDiscard, Call.GfxDiscard], code := App.OnCleanup }

end ArrayTextureApp

/-! ## FullscreenQuad sample -/

/-- The data members of `class FullscreenQuadApp`. -/
structure FullscreenQuadApp where
  drawState : DrawState
  params : Params

namespace FullscreenQuadApp

def OnInit (e : Engine) (s : FullscreenQuadApp) : Step FullscreenQuadApp :=
  let drawState1 := { s.drawState with VertexBuffers0 := some e.vertexBuffer }
  let drawState2 := { drawState1 with Pipeline := some e.pipeline }
  { app := { drawState := drawState2, params := { s.params with time := 0.0 } },
    calls := [Call.GfxSetup 600 600 false "Oryol Fullscreen Quad Sample",
      Call.CreateVertexBuffer, Call.CreateShader, Call.CreatePipeline],
    code := App.OnInit }

def OnRunning (e : Engine) (s : FullscreenQuadApp) : Step FullscreenQuadApp :=
  let params := { s.params with time := s.params.time + 1.0 / 60.0 }
  { app := { s with params := params },
    calls := [Call.BeginPass none, Call.ApplyDrawState s.drawState,
      Call.ApplyUniformBlock (UniformBlock.params params), Call.Draw ⟨0, 4⟩, Call.EndPass,
      Call.CommitFrame, Call.QuitRequested],
    code := if e.QuitRequested then AppState.Code.Cleanup else AppState.Code.Running }

def OnCleanup (_e : Engine) (s : FullscreenQuadApp) : Step FullscreenQuadApp :=
  { app := s, calls := [Call.GfxDiscard], code := App.OnCleanup }

end FullscreenQuadApp

/-! ## Frame sequences and the application runner -/

/-- The successive results of calling the callback `f` once per frame, the
engine answering `es` frame by frame. -/
def runFrames {σ : Type} (f : Engine → σ → Step σ) : List Engine → σ → List (Step σ)
  | [], _ => []
  | e :: es, s => f e s :: runFrames f es (f e s).app

/-- The application object after the frames `es`. -/
def afterFrames {σ : Type} (f : Engine → σ → Step σ) (es : List Engine) (s : σ) : σ :=
  es.foldl (fun acc e => (f e acc).app) s

/-- The times uploaded through `ApplyUniformBlock` by the calls of a log. -/
def uploadedTimes : List Call → List ℚ
  | [] => []
  | Call.ApplyUniformBlock (UniformBlock.params p) :: cs => p.time :: uploadedTimes cs
  | _ :: cs => uploadedTimes cs

/-- The lifecycle callbacks of a sample. -/
inductive Callback where
  | OnInit
  | OnRunning
  | OnCleanup
deriving DecidableEq

/-- A sample as the runner sees it: its three callbacks. -/
structure Callbacks (σ : Type) where
  OnInit : Engine → σ → Step σ
  OnRunning : Engine → σ → Step σ
  OnCleanup : Engine → σ → Step σ

/-- Modelled from the spec: the application runner behind `OryolMain`, whose
code is not part of the samples. Each frame it invokes the callback of the
current state and moves to the state the callback returns; after the
terminal status it invokes nothing. The result lists the callbacks invoked,
one per frame, with their results. -/
def runner {σ : Type} (a : Callbacks σ) : List Engine → AppState.Code → σ → List (Callback × Step σ)
  | [], _, _ => []
  | e :: es, AppState.Code.Init, s =>
      (Callback.OnInit, a.OnInit e s) :: runner a es (a.OnInit e s).code (a.OnInit e s).app
  | e :: es, AppState.Code.Running, s =>
      (Callback.OnRunning, a.OnRunning e s) ::
        runner a es (a.OnRunning e s).code (a.OnRunning e s).app
  | e :: es, AppState.Code.Cleanup, s =>
      (Callback.OnCleanup, a.OnCleanup e s) ::
        runner a es (a.OnCleanup e s).code (a.OnCleanup e s).app
  | _ :: _, AppState.Code.Destroy, _ => []

/-- The ArrayTexture sample under the runner. -/
def ArrayTextureApp.callbacks (b : Build) : Callbacks ArrayTextureApp :=
  { OnInit := ArrayTextureApp.OnInit, OnRunning := ArrayTextureApp.OnRunning b,
    OnCleanup := ArrayTextureApp.OnCleanup }

/-- The FullscreenQuad sample under the runner. -/
def FullscreenQuadApp.callbacks : Callbacks FullscreenQuadApp :=
  { OnInit := FullscreenQuadApp.OnInit, OnRunning := FullscreenQuadApp.OnRunning,
    OnCleanup := FullscreenQuadApp.OnCleanup }

theorem texelBody_evenOdd (layer y x : Nat) (s : Checker) :
    (texelBody layer y x s).evenOdd = s.evenOdd + 1 := rfl

theorem texelBody_data (layer y x : Nat) (s : Checker) (hl : layer < 3) (l r c : Nat) :
    (texelBody layer y x s).data l r c =
      if l = layer ∧ r = y ∧ c = x then some (texelValue layer s.evenOdd)
      else s.data l r c := by
  have hmod : s.evenOdd &&& 1 = s.evenOdd % 2 := Nat.and_one_is_mod _
  have h2 : s.evenOdd % 2 = 0 ∨ s.evenOdd % 2 = 1 := by omega
  have hcases : layer = 0 ∨ layer = 1 ∨ layer = 2 := by omega
  rcases hcases with rfl | rfl | rfl <;> rcases h2 with h | h <;>
    simp [texelBody, Texels.set, texelValue, layerColor, hmod, h]

theorem xLoop_spec (layer y : Nat) (hl : layer < 3) (s : Checker) (n : Nat) :
    (forLoop (texelBody layer y) n s).evenOdd = s.evenOdd + n ∧
    ∀ l r c, (forLoop (texelBody layer y) n s).data l r c =
      if l = layer ∧ r = y ∧ c < n then some (texelValue layer (s.evenOdd + c))
      else s.data l r c := by
  induction n with
  | zero => simp [forLoop]
  | succ n ih =>
    obtain ⟨ihe, ihd⟩ := ih
    refine ⟨by simp only [forLoop, texelBody_evenOdd, ihe]; omega, ?_⟩
    intro l r c
    simp only [forLoop]
    rw [texelBody_data layer y n _ hl, ihe, ihd]
    by_cases h1 : l = layer ∧ r = y ∧ c = n
    · have h3 : l = layer ∧ r = y ∧ c < n + 1 := ⟨h1.1, h1.2.1, by omega⟩
      rw [if_pos h1, if_pos h3, h1.2.2]
    · by_cases h2 : l = layer ∧ r = y ∧ c < n
      · have h3 : l = layer ∧ r = y ∧ c < n + 1 := ⟨h2.1, h2.2.1, by omega⟩
        rw [if_neg h1, if_pos h2, if_pos h3]
      · have h3 : ¬ (l = layer ∧ r = y ∧ c < n + 1) := by
          rintro ⟨a, b, c1⟩
          rcases Nat.lt_succ_iff_lt_or_eq.mp c1 with c2 | c2
          · exact h2 ⟨a, b, c2⟩
          · exact h1 ⟨a, b, c2⟩
        rw [if_neg h1, if_neg h2, if_neg h3]

theorem rowBody_spec (layer y : Nat) (hl : layer < 3) (s : Checker) :
    (rowBody layer y s).evenOdd = s.evenOdd + 17 ∧
    ∀ l r c, (rowBody layer y s).data l r c =
      if l = layer ∧ r = y ∧ c < 16 then some (texelValue layer (s.evenOdd + c))
      else s.data l r c := by
  obtain ⟨he, hd⟩ := xLoop_spec layer y hl s width
  refine ⟨?_, ?_⟩
  · show (forLoop (texelBody layer y) width s).evenOdd + 1 = _
    rw [he]; rfl
  · intro l r c
    exact hd l r c

theorem yLoop_spec (layer : Nat) (hl : layer < 3) (s : Checker) (n : Nat) :
    (forLoop (rowBody layer) n s).evenOdd = s.evenOdd + 17 * n ∧
    ∀ l r c, (forLoop (rowBody layer) n s).data l r c =
      if l = layer ∧ r < n ∧ c < 16 then some (texelValue layer (s.evenOdd + 17 * r + c))
      else s.data l r c := by
  induction n with
  | zero => simp [forLoop]
  | succ n ih =>
    obtain ⟨ihe, ihd⟩ := ih
    obtain ⟨he, hd⟩ := rowBody_spec layer n hl (forLoop (rowBody layer) n s)
    refine ⟨by simp only [forLoop, he, ihe]; omega, ?_⟩
    intro l r c
    simp only [forLoop]
    rw [hd, ihe, ihd]
    by_cases h1 : l = layer ∧ r = n ∧ c < 16
    · have h3 : l = layer ∧ r < n + 1 ∧ c < 16 := ⟨h1.1, by omega, h1.2.2⟩
      rw [if_pos h1, if_pos h3, h1.2.1]
    · by_cases h2 : l = layer ∧ r < n ∧ c < 16
      · have h3 : l = layer ∧ r < n + 1 ∧ c < 16 := ⟨h2.1, by omega, h2.2.2⟩
        rw [if_neg h1, if_pos h2, if_pos h3]
      · have h3 : ¬ (l = layer ∧ r < n + 1 ∧ c < 16) := by
          rintro ⟨a, b, c1⟩
          rcases Nat.lt_succ_iff_lt_or_eq.mp b with c2 | c2
          · exact h2 ⟨a, c2, c1⟩
          · exact h1 ⟨a, c2, c1⟩
        rw [if_neg h1, if_neg h2, if_neg h3]

theorem layerBody_spec (layer : Nat) (hl : layer < 3) (s : Checker) :
    (layerBody layer s).evenOdd = s.evenOdd + 273 ∧
    ∀ l r c, (layerBody layer s).data l r c =
      if l = layer ∧ r < 16 ∧ c < 16 then some (texelValue layer (s.evenOdd + 17 * r + c))
      else s.data l r c := by
  obtain ⟨he, hd⟩ := yLoop_spec layer hl s height
  refine ⟨?_, ?_⟩
  · show (forLoop (rowBody layer) height s).evenOdd + 1 = _
    rw [he]; rfl
  · intro l r c
    exact hd l r c

theorem layerLoop_spec (s : Checker) (n : Nat) (hn : n ≤ 3) :
    (forLoop layerBody n s).evenOdd = s.evenOdd + 273 * n ∧
    ∀ l r c, (forLoop layerBody n s).data l r c =
      if l < n ∧ r < 16 ∧ c < 16 then
        some (texelValue l (s.evenOdd + 273 * l + 17 * r + c))
      else s.data l r c := by
  induction n with
  | zero => simp [forLoop]
  | succ n ih =>
    obtain ⟨ihe, ihd⟩ := ih (by omega)
    obtain ⟨he, hd⟩ := layerBody_spec n (by omega) (forLoop layerBody n s)
    refine ⟨by simp only [forLoop, he, ihe]; omega, ?_⟩
    intro l r c
    simp only [forLoop]
    rw [hd, ihe, ihd]
    by_cases h1 : l = n ∧ r < 16 ∧ c < 16
    · have h3 : l < n + 1 ∧ r < 16 ∧ c < 16 := ⟨by omega, h1.2⟩
      rw [if_pos h1, if_pos h3, h1.1]
    · by_cases h2 : l < n ∧ r < 16 ∧ c < 16
      · have h3 : l < n + 1 ∧ r < 16 ∧ c < 16 := ⟨by omega, h2.2⟩
        rw [if_neg h1, if_pos h2, if_pos h3]
      · have h3 : ¬ (l < n + 1 ∧ r < 16 ∧ c < 16) := by
          rintro ⟨a, b⟩
          rcases Nat.lt_succ_iff_lt_or_eq.mp a with c2 | c2
          · exact h2 ⟨c2, b⟩
          · exact h1 ⟨c2, b⟩
        rw [if_neg h1, if_neg h2, if_neg h3]

theorem checkerAt_evenOdd (L Y X : Nat) (hL : L < 3) :
    (checkerAt L Y X).evenOdd = 273 * L + 17 * Y + X := by
  unfold checkerAt
  rw [(xLoop_spec L Y hL _ X).1, (yLoop_spec L hL _ Y).1,
    (layerLoop_spec checkerInit L (by omega)).1]
  show 0 + 273 * L + 17 * Y + X = _
  omega

/-- C1: every texel of the 3 x 16 x 16 array is written, with the layer colour
`C[L]` where `L + Y + X` is odd and `0` elsewhere; the counter `evenOdd`
in force when `data[L][Y][X]` is written has the parity of `L + Y + X`; and
when texture arrays are supported `OnInit` hands this array to the texture. -/
theorem checkerboard_parity (L Y X : Nat) (hL : L < 3) (hY : Y < 16) (hX : X < 16)
    (e : Engine) (s : ArrayTextureApp) (he : e.TextureArray = true) :
    checkerboard.data L Y X =
      some (if (L + Y + X) % 2 = 1 then layerColor L else 0) ∧
    (checkerAt L Y X).evenOdd % 2 = (L + Y + X) % 2 ∧
    (layerColor 0 = 0xFF0000FF ∧ layerColor 1 = 0xFF00FF00 ∧ layerColor 2 = 0xFFFF0000) ∧
    Call.CreateTexture 16 16 3 checkerboard.data.content ∈
      (ArrayTextureApp.OnInit e s).calls := by
  obtain ⟨_, hd⟩ := layerLoop_spec checkerInit numLayers (Nat.le_refl 3)
  have hpar : (273 * L + 17 * Y + X) % 2 = (L + Y + X) % 2 := by omega
  refine ⟨?_, by rw [checkerAt_evenOdd L Y X hL]; exact hpar, ⟨rfl, rfl, rfl⟩, ?_⟩
  · show (forLoop layerBody numLayers checkerInit).data L Y X = _
    rw [hd L Y X, if_pos ⟨hL, hY, hX⟩]
    have h0 : checkerInit.evenOdd = 0 := rfl
    simp only [texelValue, h0, Nat.zero_add, hpar]
  · simp [ArrayTextureApp.OnInit, he, width, height, numLayers]

theorem checkerboard_parity_witness :
    (1 < 3 ∧ 2 < 16 ∧ 4 < 16) ∧
    checkerboard.data 1 2 4 = some (if (1 + 2 + 4) % 2 = 1 then layerColor 1 else 0) ∧
    (checkerAt 1 2 4).evenOdd % 2 = (1 + 2 + 4) % 2 :=
  have h := checkerboard_parity 1 2 4 (by decide) (by decide) (by decide)
    ⟨true, 800, 512, false, 1, 2, 3, 4, 5, ⟨0, 36⟩⟩ ArrayTextureApp.construct rfl
  ⟨by decide, h.1, h.2.1⟩

/-! ## Shader parameters of the ArrayTexture sample -/

/-- C2: at frame index `N` the rotation angles are `0.25 * N` degrees about
the X axis and `0.2 * N` degrees about the Y axis (the angles themselves, so
also modulo 360), and the UV offsets are `(0.001 N, -0.001 N)`,
`(-0.001 N, 0.001 N)` and `(0, 0)`, over exact rationals. -/
theorem computeShaderParams_frame (s : ArrayTextureApp) (N : Nat) :
    (ArrayTextureApp.computeShaderParams { s with frameIndex := (N : Int) }).mvp =
      Mat4.mul s.proj
        (Mat4.rotate
          (Mat4.rotate (Mat4.translate Mat4.ctor (0, 0, -5 / 2))
            (radians ((1 / 4 : ℚ) * N)) (1, 0, 0))
          (radians ((1 / 5 : ℚ) * N)) (0, 1, 0)) ∧
    (radians ((1 / 4 : ℚ) * N)).degrees = (N : ℚ) / 4 ∧
    (radians ((1 / 5 : ℚ) * N)).degrees = (N : ℚ) / 5 ∧
    (ArrayTextureApp.computeShaderParams { s with frameIndex := (N : Int) }).uvOffset0 =
      ((N : ℚ) / 1000, -((N : ℚ) / 1000)) ∧
    (ArrayTextureApp.computeShaderParams { s with frameIndex := (N : Int) }).uvOffset1 =
      (-((N : ℚ) / 1000), (N : ℚ) / 1000) ∧
    (ArrayTextureApp.computeShaderParams { s with frameIndex := (N : Int) }).uvOffset2 =
      (0, 0) := by
  simp only [ArrayTextureApp.computeShaderParams, radians]
  norm_num
  refine ⟨?_, ?_, ?_⟩ <;> ring

/-! ## One frame -/

/-- C3: when the texture-array query answers false, `OnRunning` makes exactly
the calls of `notSupported`: one `BeginPass`, one `EndPass`, one
`CommitFrame`, between the first two only the four text-drawing calls, no
`ApplyDrawState`, `ApplyUniformBlock`, `Draw` or `computeShaderParams`
anywhere, and it returns the status of `notSupported`, which is `Running`
when no quit is requested. -/
theorem OnRunning_notSupported (b : Build) (e : Engine) (s : ArrayTextureApp)
    (h : e.TextureArray = false) :
    (ArrayTextureApp.OnRunning b e s).calls =
      [Call.QueryFeature, Call.DisplayAttrs, Call.DisplayAttrs,
        Call.BeginPass (some (1 / 2, 0, 0, 1)), Call.TextScale 2 2,
        Call.CursorPos (ArrayTextureApp.notSupported.x b e) (ArrayTextureApp.notSupported.y e),
        Call.Print (ArrayTextureApp.msg b), Call.DrawTextBuffer, Call.EndPass,
        Call.CommitFrame, Call.QuitRequested] ∧
    (ArrayTextureApp.OnRunning b e s).calls.countP Call.isBeginPass = 1 ∧
    (ArrayTextureApp.OnRunning b e s).calls.countP Call.isEndPass = 1 ∧
    (ArrayTextureApp.OnRunning b e s).calls.countP Call.isCommitFrame = 1 ∧
    passBody (ArrayTextureApp.OnRunning b e s).calls =
      [Call.TextScale 2 2,
        Call.CursorPos (ArrayTextureApp.notSupported.x b e) (ArrayTextureApp.notSupported.y e),
        Call.Print (ArrayTextureApp.msg b), Call.DrawTextBuffer] ∧
    (∀ c ∈ passBody (ArrayTextureApp.OnRunning b e s).calls, c.isText = true) ∧
    (∀ c ∈ (ArrayTextureApp.OnRunning b e s).calls, c.isGeometry = false) ∧
    (ArrayTextureApp.OnRunning b e s).code = (ArrayTextureApp.notSupported b e s).code ∧
    (e.QuitRequested = false →
      (ArrayTextureApp.OnRunning b e s).code = AppState.Code.Running) := by
  have hcalls : (ArrayTextureApp.OnRunning b e s).calls =
      [Call.QueryFeature, Call.DisplayAttrs, Call.DisplayAttrs,
        Call.BeginPass (some (1 / 2, 0, 0, 1)), Call.TextScale 2 2,
        Call.CursorPos (ArrayTextureApp.notSupported.x b e) (ArrayTextureApp.notSupported.y e),
        Call.Print (ArrayTextureApp.msg b), Call.DrawTextBuffer, Call.EndPass,
        Call.CommitFrame, Call.QuitRequested] := by
    simp only [ArrayTextureApp.OnRunning, ArrayTextureApp.notSupported, h]
    norm_num
  have hcode : (ArrayTextureApp.OnRunning b e s).code =
      (ArrayTextureApp.notSupported b e s).code := by
    simp [ArrayTextureApp.OnRunning, h]
  refine ⟨hcalls, ?_, ?_, ?_, ?_, ?_, ?_, hcode, ?_⟩
  · rw [hcalls]; rfl
  · rw [hcalls]; rfl
  · rw [hcalls]; rfl
  · rw [hcalls]; rfl
  · have hb : passBody (ArrayTextureApp.OnRunning b e s).calls =
        [Call.TextScale 2 2,
          Call.CursorPos (ArrayTextureApp.notSupported.x b e)
            (ArrayTextureApp.notSupported.y e),
          Call.Print (ArrayTextureApp.msg b), Call.DrawTextBuffer] := by
      rw [hcalls]; rfl
    rw [hb]
    intro c hc
    simp only [List.mem_cons, List.mem_singleton, List.not_mem_nil, or_false] at hc
    rcases hc with rfl | rfl | rfl | rfl <;> rfl
  · rw [hcalls]
    intro c hc
    simp only [List.mem_cons, List.mem_singleton, List.not_mem_nil, or_false] at hc
    rcases hc with rfl | rfl | rfl | rfl | rfl | rfl | rfl | rfl | rfl | rfl | rfl <;> rfl
  · intro hq
    rw [hcode]
    simp [ArrayTextureApp.notSupported, hq]

theorem OnRunning_notSupported_witness :
    (ArrayTextureApp.OnRunning ⟨false, 64⟩
        ⟨false, 800, 512, false, 1, 2, 3, 4, 5, ⟨0, 36⟩⟩ ArrayTextureApp.construct).calls =
      [Call.QueryFeature, Call.DisplayAttrs, Call.DisplayAttrs,
        Call.BeginPass (some (1 / 2, 0, 0, 1)), Call.TextScale 2 2,
        Call.CursorPos
          (ArrayTextureApp.notSupported.x ⟨false, 64⟩
            ⟨false, 800, 512, false, 1, 2, 3, 4, 5, ⟨0, 36⟩⟩)
          (ArrayTextureApp.notSupported.y ⟨false, 800, 512, false, 1, 2, 3, 4, 5, ⟨0, 36⟩⟩),
        Call.Print (ArrayTextureApp.msg ⟨false, 64⟩), Call.DrawTextBuffer, Call.EndPass,
        Call.CommitFrame, Call.QuitRequested] ∧
    (ArrayTextureApp.OnRunning ⟨false, 64⟩
        ⟨false, 800, 512, false, 1, 2, 3, 4, 5, ⟨0, 36⟩⟩ ArrayTextureApp.construct).code =
      AppState.Code.Running :=
  have h := OnRunning_notSupported ⟨false, 64⟩
    ⟨false, 800, 512, false, 1, 2, 3, 4, 5, ⟨0, 36⟩⟩ ArrayTextureApp.construct rfl
  ⟨h.1, h.2.2.2.2.2.2.2.2 rfl⟩

/-- C4, as stated, fails for the FullscreenQuad sample: its pass is begun by
`Gfx::BeginPass()` without a pass action, so no clear action is passed. -/
theorem FullscreenQuad_no_clear_action :
    (FullscreenQuadApp.OnRunning ⟨true, 600, 600, false, 1, 2, 3, 4, 5, ⟨0, 36⟩⟩
        ⟨⟨none, none, none, none⟩, ⟨0⟩⟩).calls.head? = some (Call.BeginPass none) ∧
    ¬ ∃ c, Call.BeginPass (some c) ∈
      (FullscreenQuadApp.OnRunning ⟨true, 600, 600, false, 1, 2, 3, 4, 5, ⟨0, 36⟩⟩
        ⟨⟨none, none, none, none⟩, ⟨0⟩⟩).calls := by
  refine ⟨rfl, ?_⟩
  rintro ⟨c, hc⟩
  simp [FullscreenQuadApp.OnRunning] at hc

/-- C4, amended: a frame of the ArrayTexture sample on the supported path and
every frame of the FullscreenQuad sample, whatever the engine answers, make
between the queries exactly the calls begin pass, apply draw state, apply
uniform block, draw, end pass, commit frame, in this order and once each,
the three middle calls being all that lies between begin and end; the
ArrayTexture pass is begun with the clear action of colour
(0.2, 0.2, 0.3, 1), the FullscreenQuad pass with `Gfx::BeginPass()` without a
pass action. -/
theorem OnRunning_pass (b : Build) (e : Engine) (s : ArrayTextureApp) (q : FullscreenQuadApp) :
    (e.TextureArray = true →
      (ArrayTextureApp.OnRunning b e s).calls =
        [Call.QueryFeature, Call.computeShaderParams,
          Call.BeginPass (some (1 / 5, 1 / 5, 3 / 10, 1)), Call.ApplyDrawState s.drawState,
          Call.ApplyUniformBlock
            (UniformBlock.vsParams (ArrayTextureApp.computeShaderParams s)),
          Call.Draw s.primGroup, Call.EndPass, Call.CommitFrame, Call.QuitRequested] ∧
      passBody (ArrayTextureApp.OnRunning b e s).calls =
        [Call.ApplyDrawState s.drawState,
          Call.ApplyUniformBlock
            (UniformBlock.vsParams (ArrayTextureApp.computeShaderParams s)),
          Call.Draw s.primGroup]) ∧
    (FullscreenQuadApp.OnRunning e q).calls =
      [Call.BeginPass none, Call.ApplyDrawState q.drawState,
        Call.ApplyUniformBlock (UniformBlock.params ⟨q.params.time + 1 / 60⟩),
        Call.Draw ⟨0, 4⟩, Call.EndPass, Call.CommitFrame, Call.QuitRequested] ∧
    passBody (FullscreenQuadApp.OnRunning e q).calls =
      [Call.ApplyDrawState q.drawState,
        Call.ApplyUniformBlock (UniformBlock.params ⟨q.params.time + 1 / 60⟩),
        Call.Draw ⟨0, 4⟩] := by
  have hq : (FullscreenQuadApp.OnRunning e q).calls =
      [Call.BeginPass none, Call.ApplyDrawState q.drawState,
        Call.ApplyUniformBlock (UniformBlock.params ⟨q.params.time + 1 / 60⟩),
        Call.Draw ⟨0, 4⟩, Call.EndPass, Call.CommitFrame, Call.QuitRequested] := by
    simp only [FullscreenQuadApp.OnRunning]
    norm_num
  refine ⟨?_, hq, ?_⟩
  · intro h
    have hcalls : (ArrayTextureApp.OnRunning b e s).calls =
        [Call.QueryFeature, Call.computeShaderParams,
          Call.BeginPass (some (1 / 5, 1 / 5, 3 / 10, 1)), Call.ApplyDrawState s.drawState,
          Call.ApplyUniformBlock
            (UniformBlock.vsParams (ArrayTextureApp.computeShaderParams s)),
          Call.Draw s.primGroup, Call.EndPass, Call.CommitFrame, Call.QuitRequested] := by
      simp only [ArrayTextureApp.OnRunning, h]
      norm_num
    refine ⟨hcalls, ?_⟩
    rw [hcalls]; rfl
  · rw [hq]; rfl

theorem OnRunning_pass_witness :
    (⟨true, 800, 512, false, 1, 2, 3, 4, 5, ⟨0, 36⟩⟩ : Engine).TextureArray = true ∧
    (ArrayTextureApp.OnRunning ⟨false, 64⟩
        ⟨true, 800, 512, false, 1, 2, 3, 4, 5, ⟨0, 36⟩⟩ ArrayTextureApp.construct).calls =
      [Call.QueryFeature, Call.computeShaderParams,
        Call.BeginPass (some (1 / 5, 1 / 5, 3 / 10, 1)),
        Call.ApplyDrawState ArrayTextureApp.construct.drawState,
        Call.ApplyUniformBlock
          (UniformBlock.vsParams (ArrayTextureApp.computeShaderParams ArrayTextureApp.construct)),
        Call.Draw ArrayTextureApp.construct.primGroup, Call.EndPass, Call.CommitFrame,
        Call.QuitRequested] :=
  ⟨rfl, ((OnRunning_pass ⟨false, 64⟩ ⟨true, 800, 512, false, 1, 2, 3, 4, 5, ⟨0, 36⟩⟩
    ArrayTextureApp.construct ⟨⟨none, none, none, none⟩, ⟨0⟩⟩).1 rfl).1⟩

/-- C5: on the textured path, on the fallback path and in the FullscreenQuad
sample, `OnRunning` returns `Cleanup` exactly when the quit query answers
true and `Running` exactly when it answers false; no other status is
returned. -/
theorem OnRunning_code (b : Build) (e : Engine) (s : ArrayTextureApp) (q : FullscreenQuadApp) :
    ((ArrayTextureApp.OnRunning b e s).code = AppState.Code.Cleanup ↔ e.QuitRequested = true) ∧
    ((ArrayTextureApp.OnRunning b e s).code = AppState.Code.Running ↔ e.QuitRequested = false) ∧
    ((ArrayTextureApp.notSupported b e s).code = AppState.Code.Cleanup ↔
      e.QuitRequested = true) ∧
    ((ArrayTextureApp.notSupported b e s).code = AppState.Code.Running ↔
      e.QuitRequested = false) ∧
    ((FullscreenQuadApp.OnRunning e q).code = AppState.Code.Cleanup ↔ e.QuitRequested = true) ∧
    ((FullscreenQuadApp.OnRunning e q).code = AppState.Code.Running ↔
      e.QuitRequested = false) := by
  cases hq : e.QuitRequested <;> cases ht : e.TextureArray <;>
    simp [ArrayTextureApp.OnRunning, ArrayTextureApp.notSupported, FullscreenQuadApp.OnRunning,
      hq, ht]

/-! ## The cursor position of the fallback path -/

theorem msg_length (b : Build) (hb : b.emscripten = false) :
    (ArrayTextureApp.msg b).length = 38 := by
  simp only [ArrayTextureApp.msg, hb]
  decide

theorem notSupported_x_eq (b : Build) (e : Engine) (hb : b.emscripten = false)
    (hw : b.sizeBits = 32 ∨ b.sizeBits = 64) :
    ArrayTextureApp.notSupported.x b e =
      ((e.FramebufferWidth / 16) % 2 ^ b.sizeBits + 2 ^ b.sizeBits - 38) % 2 ^ b.sizeBits
        / 2 % 256 := by
  have h38 : (38 : Nat) % 2 ^ b.sizeBits = 38 := by
    rcases hw with hw | hw <;> rw [hw] <;> norm_num
  simp only [ArrayTextureApp.notSupported.x, toUInt8, sizeSub, msg_length b hb, h38]

/-- C9: in the non-Emscripten build, with a 32- or 64-bit `size_t`, a width
`W` with `38 ≤ W/16 ≤ 549` gives the cursor column `(W/16 - 38)/2`, which
centres the 38-character message, a height `H` with `H/32 ≤ 255` gives the
cursor row `H/32`, these are the arguments of `Dbg::CursorPos`, and the
800 x 512 window gives `(6, 16)`. -/
theorem notSupported_cursor_centred (b : Build) (e : Engine) (s : ArrayTextureApp)
    (hb : b.emscripten = false) (hw : b.sizeBits = 32 ∨ b.sizeBits = 64) :
    (ArrayTextureApp.msg b).length = 38 ∧
    Call.CursorPos (ArrayTextureApp.notSupported.x b e) (ArrayTextureApp.notSupported.y e) ∈
      (ArrayTextureApp.notSupported b e s).calls ∧
    (38 ≤ e.FramebufferWidth / 16 → e.FramebufferWidth / 16 ≤ 549 →
      ArrayTextureApp.notSupported.x b e = (e.FramebufferWidth / 16 - 38) / 2 ∧
      2 * ArrayTextureApp.notSupported.x b e + 38 ≤ e.FramebufferWidth / 16 ∧
      e.FramebufferWidth / 16 ≤ 2 * ArrayTextureApp.notSupported.x b e + 39) ∧
    (e.FramebufferHeight / 32 ≤ 255 →
      ArrayTextureApp.notSupported.y e = e.FramebufferHeight / 32) ∧
    (e.FramebufferWidth = 800 → e.FramebufferHeight = 512 →
      ArrayTextureApp.notSupported.x b e = 6 ∧ ArrayTextureApp.notSupported.y e = 16) := by
  have hx := notSupported_x_eq b e hb hw
  have hy : ArrayTextureApp.notSupported.y e = e.FramebufferHeight / 16 / 2 % 256 := rfl
  refine ⟨msg_length b hb, ?_, ?_, ?_, ?_⟩
  · simp [ArrayTextureApp.notSupported]
  · intro h1 h2
    rw [hx]
    rcases hw with hw | hw <;> rw [hw] <;> norm_num <;> omega
  · intro h1
    rw [hy]
    omega
  · intro h1 h2
    rw [hx, hy, h1, h2]
    rcases hw with hw | hw <;> rw [hw] <;> norm_num

theorem notSupported_cursor_centred_witness :
    (38 ≤ 800 / 16 ∧ 800 / 16 ≤ 549 ∧ 512 / 32 ≤ 255) ∧
    ArrayTextureApp.notSupported.x ⟨false, 64⟩
      ⟨false, 800, 512, false, 1, 2, 3, 4, 5, ⟨0, 36⟩⟩ = (800 / 16 - 38) / 2 ∧
    ArrayTextureApp.notSupported.y ⟨false, 800, 512, false, 1, 2, 3, 4, 5, ⟨0, 36⟩⟩ =
      512 / 32 ∧
    ArrayTextureApp.notSupported.x ⟨false, 64⟩
      ⟨false, 800, 512, false, 1, 2, 3, 4, 5, ⟨0, 36⟩⟩ = 6 ∧
    ArrayTextureApp.notSupported.y ⟨false, 800, 512, false, 1, 2, 3, 4, 5, ⟨0, 36⟩⟩ = 16 :=
  have h := notSupported_cursor_centred ⟨false, 64⟩
    ⟨false, 800, 512, false, 1, 2, 3, 4, 5, ⟨0, 36⟩⟩ ArrayTextureApp.construct rfl (Or.inr rfl)
  ⟨by decide, (h.2.2.1 (by decide) (by decide)).1, h.2.2.2.1 (by decide),
    h.2.2.2.2 rfl rfl⟩

/-- C10: in the non-Emscripten build, with a 32- or 64-bit `size_t`, a width
`W` with `W/16 < 38` makes the `size_t` difference wrap, and the cursor column
is `256 - ⌈(38 - W/16)/2⌉`, between 237 and 255; `W = 600` gives 255. -/
theorem notSupported_cursor_wraps (b : Build) (e : Engine) (hb : b.emscripten = false)
    (hw : b.sizeBits = 32 ∨ b.sizeBits = 64) (hW : e.FramebufferWidth / 16 < 38) :
    sizeSub b.sizeBits (e.FramebufferWidth / 16) (ArrayTextureApp.msg b).length =
      2 ^ b.sizeBits - (38 - e.FramebufferWidth / 16) ∧
    ArrayTextureApp.notSupported.x b e = 256 - (38 - e.FramebufferWidth / 16 + 1) / 2 ∧
    237 ≤ ArrayTextureApp.notSupported.x b e ∧
    ArrayTextureApp.notSupported.x b e ≤ 255 ∧
    (e.FramebufferWidth = 600 → ArrayTextureApp.notSupported.x b e = 255) := by
  have hx := notSupported_x_eq b e hb hw
  have hval : ArrayTextureApp.notSupported.x b e =
      256 - (38 - e.FramebufferWidth / 16 + 1) / 2 := by
    rw [hx]
    rcases hw with hw | hw <;> rw [hw] <;> norm_num <;> omega
  refine ⟨?_, hval, ?_, ?_, ?_⟩
  · simp only [sizeSub, msg_length b hb]
    rcases hw with hw | hw <;> rw [hw] <;> norm_num <;> omega
  · rw [hval]; omega
  · rw [hval]; omega
  · intro h
    rw [hval, h]

theorem notSupported_cursor_wraps_witness :
    600 / 16 < 38 ∧
    ArrayTextureApp.notSupported.x ⟨false, 32⟩
      ⟨false, 600, 600, false, 1, 2, 3, 4, 5, ⟨0, 36⟩⟩ = 256 - (38 - 600 / 16 + 1) / 2 ∧
    ArrayTextureApp.notSupported.x ⟨false, 32⟩
      ⟨false, 600, 600, false, 1, 2, 3, 4, 5, ⟨0, 36⟩⟩ = 255 :=
  have h := notSupported_cursor_wraps ⟨false, 32⟩
    ⟨false, 600, 600, false, 1, 2, 3, 4, 5, ⟨0, 36⟩⟩ rfl (Or.inl rfl) (by decide)
  ⟨by decide, h.2.1, h.2.2.2.2 rfl⟩

/-! ## Lifecycle under the application runner -/

theorem runner_Destroy {σ : Type} (a : Callbacks σ) (es : List Engine) (s : σ) :
    runner a es AppState.Code.Destroy s = [] := by
  cases es <;> rfl

theorem runner_Init_cons {σ : Type} (a : Callbacks σ) (e : Engine) (es : List Engine) (s : σ) :
    runner a (e :: es) AppState.Code.Init s =
      (Callback.OnInit, a.OnInit e s) :: runner a es (a.OnInit e s).code (a.OnInit e s).app :=
  rfl

theorem runner_Running_cons {σ : Type} (a : Callbacks σ) (e : Engine) (es : List Engine)
    (s : σ) :
    runner a (e :: es) AppState.Code.Running s =
      (Callback.OnRunning, a.OnRunning e s) ::
        runner a es (a.OnRunning e s).code (a.OnRunning e s).app :=
  rfl

theorem runner_Cleanup {σ : Type} (a : Callbacks σ)
    (hC : ∀ e s, (a.OnCleanup e s).code = AppState.Code.Destroy)
    (e : Engine) (es : List Engine) (s : σ) :
    (runner a (e :: es) AppState.Code.Cleanup s).map Prod.fst = [Callback.OnCleanup] := by
  simp [runner, hC, runner_Destroy]

/-- Whatever the engine answers, the callbacks invoked from state `Running`
are an initial segment of `OnRunning, ..., OnRunning, OnCleanup`. -/
theorem runner_Running_segment {σ : Type} (a : Callbacks σ)
    (hR : ∀ e s, (a.OnRunning e s).code =
      if e.QuitRequested then AppState.Code.Cleanup else AppState.Code.Running)
    (hC : ∀ e s, (a.OnCleanup e s).code = AppState.Code.Destroy)
    (es : List Engine) (s : σ) :
    ∃ k rest, List.replicate k Callback.OnRunning ++ [Callback.OnCleanup] =
      (runner a es AppState.Code.Running s).map Prod.fst ++ rest := by
  induction es generalizing s with
  | nil => exact ⟨0, [Callback.OnCleanup], rfl⟩
  | cons e es ih =>
    cases hq : e.QuitRequested with
    | true =>
      have hcode : (a.OnRunning e s).code = AppState.Code.Cleanup := by
        rw [hR, hq]; rfl
      cases es with
      | nil => exact ⟨1, [Callback.OnCleanup], by rw [runner_Running_cons]; rfl⟩
      | cons e2 es2 =>
        refine ⟨1, [], ?_⟩
        have h2 := runner_Cleanup a hC e2 es2 (a.OnRunning e s).app
        rw [runner_Running_cons, hcode, List.map_cons, h2]
        rfl
    | false =>
      have hcode : (a.OnRunning e s).code = AppState.Code.Running := by
        rw [hR, hq]; rfl
      obtain ⟨k, rest, hk⟩ := ih (a.OnRunning e s).app
      refine ⟨k + 1, rest, ?_⟩
      rw [runner_Running_cons, hcode, List.map_cons, List.replicate_succ, List.cons_append,
        List.cons_append, hk]

/-- Once the quit signal is observed, after frames that did not observe it,
`OnCleanup` is invoked in the next frame and nothing after it. -/
theorem runner_Running_quit {σ : Type} (a : Callbacks σ)
    (hR : ∀ e s, (a.OnRunning e s).code =
      if e.QuitRequested then AppState.Code.Cleanup else AppState.Code.Running)
    (hC : ∀ e s, (a.OnCleanup e s).code = AppState.Code.Destroy)
    (pre : List Engine) (eq ec : Engine) (post : List Engine)
    (hpre : ∀ e ∈ pre, e.QuitRequested = false) (hq : eq.QuitRequested = true) (s : σ) :
    (runner a (pre ++ eq :: ec :: post) AppState.Code.Running s).map Prod.fst =
      List.replicate (pre.length + 1) Callback.OnRunning ++ [Callback.OnCleanup] := by
  induction pre generalizing s with
  | nil =>
    have hcode : (a.OnRunning eq s).code = AppState.Code.Cleanup := by
      rw [hR, hq]; rfl
    have h2 := runner_Cleanup a hC ec post (a.OnRunning eq s).app
    rw [List.nil_append, runner_Running_cons, hcode, List.map_cons, h2]
    rfl
  | cons e pre ih =>
    have he : e.QuitRequested = false := hpre e (List.mem_cons_self _ _)
    have hcode : (a.OnRunning e s).code = AppState.Code.Running := by
      rw [hR, he]; rfl
    have ih2 := ih (fun x hx => hpre x (List.mem_cons_of_mem _ hx)) (a.OnRunning e s).app
    rw [List.cons_append, runner_Running_cons, hcode, List.map_cons, ih2]
    rfl

theorem runner_lifecycle {σ : Type} (a : Callbacks σ)
    (hI : ∀ e s, (a.OnInit e s).code = AppState.Code.Running)
    (hR : ∀ e s, (a.OnRunning e s).code =
      if e.QuitRequested then AppState.Code.Cleanup else AppState.Code.Running)
    (hC : ∀ e s, (a.OnCleanup e s).code = AppState.Code.Destroy)
    (s : σ) (es : List Engine) (e0 : Engine) (pre : List Engine) (eq ec : Engine)
    (post : List Engine) (hpre : ∀ e ∈ pre, e.QuitRequested = false)
    (hq : eq.QuitRequested = true) :
    (∃ k rest, Callback.OnInit ::
        (List.replicate k Callback.OnRunning ++ [Callback.OnCleanup]) =
      (runner a es AppState.Code.Init s).map Prod.fst ++ rest) ∧
    (runner a (e0 :: (pre ++ eq :: ec :: post)) AppState.Code.Init s).map Prod.fst =
      Callback.OnInit ::
        (List.replicate (pre.length + 1) Callback.OnRunning ++ [Callback.OnCleanup]) := by
  constructor
  · cases es with
    | nil => exact ⟨0, [Callback.OnInit, Callback.OnCleanup], rfl⟩
    | cons e es =>
      obtain ⟨k, rest, hk⟩ := runner_Running_segment a hR hC es (a.OnInit e s).app
      refine ⟨k, rest, ?_⟩
      rw [runner_Init_cons, hI, List.map_cons, List.cons_append, hk]
  · rw [runner_Init_cons, hI, List.map_cons,
      runner_Running_quit a hR hC pre eq ec post hpre hq]

theorem ArrayTextureApp.OnInit_code (e : Engine) (s : ArrayTextureApp) :
    (ArrayTextureApp.OnInit e s).code = AppState.Code.Running := by
  cases h : e.TextureArray <;> simp [ArrayTextureApp.OnInit, h, App.OnInit]

/-- C6: under the runner, for either sample, `OnInit` returns the status
`Running`; whatever the engine answers, the callbacks invoked are an initial
segment of `OnInit, OnRunning, ..., OnRunning, OnCleanup`; and when the quit
signal is observed in a frame after `pre.length` frames that did not observe
it, the callbacks invoked are exactly `OnInit`, `pre.length + 1` times
`OnRunning`, and `OnCleanup` once, whatever frames follow. -/
theorem lifecycle_order (b : Build) (s : ArrayTextureApp) (q : FullscreenQuadApp)
    (es : List Engine) (e0 : Engine) (pre : List Engine) (eq ec : Engine) (post : List Engine)
    (hpre : ∀ e ∈ pre, e.QuitRequested = false) (hq : eq.QuitRequested = true) :
    ((ArrayTextureApp.OnInit e0 s).code = AppState.Code.Running ∧
      (∃ k rest, Callback.OnInit ::
          (List.replicate k Callback.OnRunning ++ [Callback.OnCleanup]) =
        (runner (ArrayTextureApp.callbacks b) es AppState.Code.Init s).map Prod.fst ++ rest) ∧
      (runner (ArrayTextureApp.callbacks b) (e0 :: (pre ++ eq :: ec :: post))
          AppState.Code.Init s).map Prod.fst =
        Callback.OnInit ::
          (List.replicate (pre.length + 1) Callback.OnRunning ++ [Callback.OnCleanup])) ∧
    ((FullscreenQuadApp.OnInit e0 q).code = AppState.Code.Running ∧
      (∃ k rest, Callback.OnInit ::
          (List.replicate k Callback.OnRunning ++ [Callback.OnCleanup]) =
        (runner FullscreenQuadApp.callbacks es AppState.Code.Init q).map Prod.fst ++ rest) ∧
      (runner FullscreenQuadApp.callbacks (e0 :: (pre ++ eq :: ec :: post))
          AppState.Code.Init q).map Prod.fst =
        Callback.OnInit ::
          (List.replicate (pre.length + 1) Callback.OnRunning ++ [Callback.OnCleanup])) := by
  have hA := runner_lifecycle (ArrayTextureApp.callbacks b) ArrayTextureApp.OnInit_code
    (fun e s => (by
      cases hq : e.QuitRequested <;> cases ht : e.TextureArray <;>
        simp [ArrayTextureApp.callbacks, ArrayTextureApp.OnRunning,
          ArrayTextureApp.notSupported, hq, ht]))
    (fun _ _ => rfl) s es e0 pre eq ec post hpre hq
  have hF := runner_lifecycle FullscreenQuadApp.callbacks (fun _ _ => rfl)
    (fun _ _ => rfl) (fun _ _ => rfl) q es e0 pre eq ec post hpre hq
  exact ⟨⟨ArrayTextureApp.OnInit_code e0 s, hA⟩, ⟨rfl, hF⟩⟩

theorem lifecycle_order_witness :
    (∀ e ∈ [(⟨true, 800, 512, false, 1, 2, 3, 4, 5, ⟨0, 36⟩⟩ : Engine)],
      e.QuitRequested = false) ∧
    (⟨true, 800, 512, true, 1, 2, 3, 4, 5, ⟨0, 36⟩⟩ : Engine).QuitRequested = true ∧
    (runner (ArrayTextureApp.callbacks ⟨false, 64⟩)
        [⟨true, 800, 512, false, 1, 2, 3, 4, 5, ⟨0, 36⟩⟩,
          ⟨true, 800, 512, false, 1, 2, 3, 4, 5, ⟨0, 36⟩⟩,
          ⟨true, 800, 512, true, 1, 2, 3, 4, 5, ⟨0, 36⟩⟩,
          ⟨true, 800, 512, true, 1, 2, 3, 4, 5, ⟨0, 36⟩⟩]
        AppState.Code.Init ArrayTextureApp.construct).map Prod.fst =
      [Callback.OnInit, Callback.OnRunning, Callback.OnRunning, Callback.OnCleanup] :=
  have hpre : ∀ e ∈ [(⟨true, 800, 512, false, 1, 2, 3, 4, 5, ⟨0, 36⟩⟩ : Engine)],
      e.QuitRequested = false := by
    intro e he
    rw [List.mem_singleton] at he
    rw [he]
  ⟨hpre, rfl,
    (lifecycle_order ⟨false, 64⟩ ArrayTextureApp.construct ⟨⟨none, none, none, none⟩, ⟨0⟩⟩ []
      ⟨true, 800, 512, false, 1, 2, 3, 4, 5, ⟨0, 36⟩⟩
      [⟨true, 800, 512, false, 1, 2, 3, 4, 5, ⟨0, 36⟩⟩]
      ⟨true, 800, 512, true, 1, 2, 3, 4, 5, ⟨0, 36⟩⟩
      ⟨true, 800, 512, true, 1, 2, 3, 4, 5, ⟨0, 36⟩⟩ [] hpre rfl).1.2.2⟩

/-! ## Effect of a frame on the application object -/

theorem wrapInt32_succ (v : Int) (h1 : -2 ^ 31 ≤ v) (h2 : v < 2 ^ 31 - 1) :
    wrapInt32 (v + 1) = v + 1 := by
  unfold wrapInt32
  norm_num at h1 h2 ⊢
  omega

theorem ArrayTextureApp.OnRunning_app (b : Build) (e : Engine) (s : ArrayTextureApp) :
    (ArrayTextureApp.OnRunning b e s).app =
      if e.TextureArray then { s with frameIndex := wrapInt32 (s.frameIndex + 1) } else s := by
  cases h : e.TextureArray <;>
    simp [ArrayTextureApp.OnRunning, ArrayTextureApp.notSupported, h]

/-- Within the range of `int`, the frames `es` add to `frameIndex` the number
of frames among them that took the textured path, and change nothing else. -/
theorem ArrayTextureApp.afterFrames_eq (b : Build) (es : List Engine) (s : ArrayTextureApp)
    (h1 : -2 ^ 31 ≤ s.frameIndex)
    (h2 : s.frameIndex + (es.countP fun e => e.TextureArray) ≤ 2 ^ 31 - 1) :
    afterFrames (ArrayTextureApp.OnRunning b) es s =
      { s with frameIndex := s.frameIndex + (es.countP fun e => e.TextureArray) } := by
  induction es generalizing s with
  | nil => simp [afterFrames]
  | cons e es ih =>
    have hstep : afterFrames (ArrayTextureApp.OnRunning b) (e :: es) s =
        afterFrames (ArrayTextureApp.OnRunning b) es (ArrayTextureApp.OnRunning b e s).app :=
      rfl
    rw [hstep, ArrayTextureApp.OnRunning_app]
    cases ht : e.TextureArray with
    | false =>
      have hc : (e :: es).countP (fun e => e.TextureArray) =
          es.countP (fun e => e.TextureArray) := by
        simp [List.countP_cons, ht]
      rw [hc] at h2 ⊢
      simpa using ih s h1 h2
    | true =>
      have hc : (e :: es).countP (fun e => e.TextureArray) =
          es.countP (fun e => e.TextureArray) + 1 := by
        simp [List.countP_cons, ht]
      rw [hc] at h2 ⊢
      push_cast at h2 ⊢
      have hw : wrapInt32 (s.frameIndex + 1) = s.frameIndex + 1 :=
        wrapInt32_succ _ h1 (by omega)
      have := ih { s with frameIndex := s.frameIndex + 1 } (by simp; omega) (by simp; omega)
      rw [if_pos rfl, hw, this]
      simp only [ArrayTextureApp.mk.injEq, true_and, and_true]
      clear hw this ih
      omega

theorem runFrames_getElem? {σ : Type} (f : Engine → σ → Step σ) (es : List Engine) (s : σ)
    (i : Nat) :
    (runFrames f es s)[i]? = (es[i]?).map fun e => f e (afterFrames f (es.take i) s) := by
  induction es generalizing s i with
  | nil => simp [runFrames]
  | cons e es ih =>
    cases i with
    | zero => simp [runFrames, afterFrames]
    | succ i =>
      simp only [runFrames, List.getElem?_cons_succ, List.take_succ_cons, ih]
      rfl

theorem ArrayTextureApp.OnInit_frameIndex (e : Engine) (s : ArrayTextureApp) :
    (ArrayTextureApp.OnInit e s).app.frameIndex = s.frameIndex := by
  cases h : e.TextureArray <;> simp [ArrayTextureApp.OnInit, h]

/-- C7, as stated, fails at `frameIndex = INT_MAX`: the textured frame leaves
`frameIndex = INT_MIN`, not `INT_MAX + 1`. -/
theorem OnRunning_frameIndex_overflow :
    (⟨true, 800, 512, false, 1, 2, 3, 4, 5, ⟨0, 36⟩⟩ : Engine).TextureArray = true ∧
    (ArrayTextureApp.OnRunning ⟨false, 64⟩ ⟨true, 800, 512, false, 1, 2, 3, 4, 5, ⟨0, 36⟩⟩
        { ArrayTextureApp.construct with frameIndex := 2147483647 }).app.frameIndex =
      -2147483648 ∧
    (ArrayTextureApp.OnRunning ⟨false, 64⟩ ⟨true, 800, 512, false, 1, 2, 3, 4, 5, ⟨0, 36⟩⟩
        { ArrayTextureApp.construct with frameIndex := 2147483647 }).app.frameIndex ≠
      2147483647 + 1 := by
  refine ⟨rfl, ?_, ?_⟩ <;>
    simp [ArrayTextureApp.OnRunning, ArrayTextureApp.construct, wrapInt32]

/-- C7, amended: `OnRunning` of the ArrayTexture sample leaves `drawState`,
`primGroup` and `proj` unchanged; on the textured path it adds exactly 1 to
`frameIndex` whenever `frameIndex < INT_MAX`; on the fallback path it leaves
`frameIndex` unchanged; `OnRunning` of the FullscreenQuad sample leaves
`drawState` unchanged and changes only `params.time`; and, counting from the
object left by `OnInit`, a frame on the textured path that is preceded by `k`
textured frames, `k ≤ INT_MAX`, uploads the shader parameters computed from
frame index `k`. -/
theorem OnRunning_frame_effect (b : Build) (e : Engine) (s : ArrayTextureApp)
    (q : FullscreenQuadApp) (e0 : Engine) (es : List Engine) (i : Nat) (ei : Engine) :
    ((ArrayTextureApp.OnRunning b e s).app.drawState = s.drawState ∧
      (ArrayTextureApp.OnRunning b e s).app.primGroup = s.primGroup ∧
      (ArrayTextureApp.OnRunning b e s).app.proj = s.proj) ∧
    (e.TextureArray = true → -2 ^ 31 ≤ s.frameIndex → s.frameIndex < 2 ^ 31 - 1 →
      (ArrayTextureApp.OnRunning b e s).app.frameIndex = s.frameIndex + 1) ∧
    (e.TextureArray = false →
      (ArrayTextureApp.OnRunning b e s).app.frameIndex = s.frameIndex) ∧
    ((FullscreenQuadApp.OnRunning e q).app.drawState = q.drawState ∧
      (FullscreenQuadApp.OnRunning e q).app =
        { q with params := { q.params with time := q.params.time + 1 / 60 } }) ∧
    (es[i]? = some ei → ei.TextureArray = true →
      (List.countP (fun x => x.TextureArray) (es.take i) : Int) ≤ 2 ^ 31 - 1 →
      (runFrames (ArrayTextureApp.OnRunning b) es
          (ArrayTextureApp.OnInit e0 ArrayTextureApp.construct).app)[i]? =
        some (ArrayTextureApp.OnRunning b ei
          { (ArrayTextureApp.OnInit e0 ArrayTextureApp.construct).app with
            frameIndex := (List.countP (fun x => x.TextureArray) (es.take i) : Int) }) ∧
      Call.ApplyUniformBlock (UniformBlock.vsParams (ArrayTextureApp.computeShaderParams
          { (ArrayTextureApp.OnInit e0 ArrayTextureApp.construct).app with
            frameIndex := (List.countP (fun x => x.TextureArray) (es.take i) : Int) })) ∈
        (ArrayTextureApp.OnRunning b ei
          { (ArrayTextureApp.OnInit e0 ArrayTextureApp.construct).app with
            frameIndex :=
              (List.countP (fun x => x.TextureArray) (es.take i) : Int) }).calls) := by
  refine ⟨?_, ?_, ?_, ⟨rfl, ?_⟩, ?_⟩
  · rw [ArrayTextureApp.OnRunning_app]
    cases e.TextureArray <;> simp
  · intro ht h1 h2
    rw [ArrayTextureApp.OnRunning_app, ht, if_pos rfl]
    exact wrapInt32_succ _ h1 h2
  · intro ht
    rw [ArrayTextureApp.OnRunning_app, ht]
    rfl
  · simp only [FullscreenQuadApp.OnRunning]
    norm_num
  · intro hi ht hk
    have h0 : (ArrayTextureApp.OnInit e0 ArrayTextureApp.construct).app.frameIndex = 0 := by
      rw [ArrayTextureApp.OnInit_frameIndex]; rfl
    have haf := ArrayTextureApp.afterFrames_eq b (es.take i)
      (ArrayTextureApp.OnInit e0 ArrayTextureApp.construct).app (by rw [h0]; norm_num)
      (by rw [h0, zero_add]; exact hk)
    rw [h0, zero_add] at haf
    refine ⟨?_, ?_⟩
    · rw [runFrames_getElem?, hi, Option.map_some', haf]
    · simp [ArrayTextureApp.OnRunning, ht]

theorem OnRunning_frame_effect_witness :
    (ArrayTextureApp.OnRunning ⟨false, 64⟩ ⟨true, 800, 512, false, 1, 2, 3, 4, 5, ⟨0, 36⟩⟩
        ArrayTextureApp.construct).app.frameIndex = ArrayTextureApp.construct.frameIndex + 1 ∧
    (ArrayTextureApp.OnRunning ⟨false, 64⟩ ⟨false, 800, 512, false, 1, 2, 3, 4, 5, ⟨0, 36⟩⟩
        ArrayTextureApp.construct).app.frameIndex = ArrayTextureApp.construct.frameIndex ∧
    (runFrames (ArrayTextureApp.OnRunning ⟨false, 64⟩)
        [⟨true, 800, 512, false, 1, 2, 3, 4, 5, ⟨0, 36⟩⟩,
          ⟨true, 800, 512, false, 1, 2, 3, 4, 5, ⟨0, 36⟩⟩]
        (ArrayTextureApp.OnInit ⟨true, 800, 512, false, 1, 2, 3, 4, 5, ⟨0, 36⟩⟩
          ArrayTextureApp.construct).app)[1]? =
      some (ArrayTextureApp.OnRunning ⟨false, 64⟩
        ⟨true, 800, 512, false, 1, 2, 3, 4, 5, ⟨0, 36⟩⟩
        { (ArrayTextureApp.OnInit ⟨true, 800, 512, false, 1, 2, 3, 4, 5, ⟨0, 36⟩⟩
            ArrayTextureApp.construct).app with
          frameIndex :=
            (List.countP (fun x => x.TextureArray)
              (([⟨true, 800, 512, false, 1, 2, 3, 4, 5, ⟨0, 36⟩⟩,
                ⟨true, 800, 512, false, 1, 2, 3, 4, 5, ⟨0, 36⟩⟩] : List Engine).take 1) :
              Int) }) :=
  ⟨(OnRunning_frame_effect ⟨false, 64⟩ ⟨true, 800, 512, false, 1, 2, 3, 4, 5, ⟨0, 36⟩⟩
      ArrayTextureApp.construct ⟨⟨none, none, none, none⟩, ⟨0⟩⟩
      ⟨true, 800, 512, false, 1, 2, 3, 4, 5, ⟨0, 36⟩⟩ [] 0
      ⟨true, 800, 512, false, 1, 2, 3, 4, 5, ⟨0, 36⟩⟩).2.1 rfl (by decide) (by decide),
    (OnRunning_frame_effect ⟨false, 64⟩ ⟨false, 800, 512, false, 1, 2, 3, 4, 5, ⟨0, 36⟩⟩
      ArrayTextureApp.construct ⟨⟨none, none, none, none⟩, ⟨0⟩⟩
      ⟨true, 800, 512, false, 1, 2, 3, 4, 5, ⟨0, 36⟩⟩ [] 0
      ⟨true, 800, 512, false, 1, 2, 3, 4, 5, ⟨0, 36⟩⟩).2.2.1 rfl,
    ((OnRunning_frame_effect ⟨false, 64⟩ ⟨true, 800, 512, false, 1, 2, 3, 4, 5, ⟨0, 36⟩⟩
      ArrayTextureApp.construct ⟨⟨none, none, none, none⟩, ⟨0⟩⟩
      ⟨true, 800, 512, false, 1, 2, 3, 4, 5, ⟨0, 36⟩⟩
      [⟨true, 800, 512, false, 1, 2, 3, 4, 5, ⟨0, 36⟩⟩,
        ⟨true, 800, 512, false, 1, 2, 3, 4, 5, ⟨0, 36⟩⟩] 1
      ⟨true, 800, 512, false, 1, 2, 3, 4, 5, ⟨0, 36⟩⟩).2.2.2.2 rfl rfl (by decide)).1⟩

/-! ## Elapsed time of the FullscreenQuad sample -/

theorem FullscreenQuadApp.uploaded (e : Engine) (q : FullscreenQuadApp) :
    uploadedTimes (FullscreenQuadApp.OnRunning e q).calls = [q.params.time + 1 / 60] ∧
    (FullscreenQuadApp.OnRunning e q).app.params.time = q.params.time + 1 / 60 := by
  simp only [FullscreenQuadApp.OnRunning, uploadedTimes]
  norm_num

theorem FullscreenQuadApp.uploads_from (es : List Engine) (q : FullscreenQuadApp) :
    (runFrames FullscreenQuadApp.OnRunning es q).flatMap (fun r => uploadedTimes r.calls) =
      (List.range es.length).map fun (n : Nat) => q.params.time + ((n : ℚ) + 1) / 60 := by
  induction es generalizing q with
  | nil => simp [runFrames]
  | cons e es ih =>
    obtain ⟨h1, h2⟩ := FullscreenQuadApp.uploaded e q
    simp only [runFrames, List.flatMap_cons, h1, ih, h2, List.length_cons,
      List.range_succ_eq_map, List.map_cons, List.map_map, List.singleton_append]
    congr 1
    · norm_num
    · apply List.map_congr_left
      intro n _
      simp only [Function.comp, Nat.succ_eq_add_one]
      push_cast
      ring

/-- C8: `OnInit` sets `params.time` to 0; each `OnRunning` adds exactly 1/60 to
it and uploads the new value between `ApplyDrawState` and `Draw`; so the
times uploaded by the successive `OnRunning` calls after `OnInit` are
1/60, 2/60, ..., n/60, a strictly increasing sequence (over exact
rationals). -/
theorem FullscreenQuad_time (e0 e : Engine) (s0 q : FullscreenQuadApp) (es : List Engine) :
    (FullscreenQuadApp.OnInit e0 s0).app.params.time = 0 ∧
    (FullscreenQuadApp.OnRunning e q).app.params.time = q.params.time + 1 / 60 ∧
    (FullscreenQuadApp.OnRunning e q).calls =
      [Call.BeginPass none, Call.ApplyDrawState q.drawState,
        Call.ApplyUniformBlock (UniformBlock.params ⟨q.params.time + 1 / 60⟩),
        Call.Draw ⟨0, 4⟩, Call.EndPass, Call.CommitFrame, Call.QuitRequested] ∧
    (runFrames FullscreenQuadApp.OnRunning es (FullscreenQuadApp.OnInit e0 s0).app).flatMap
        (fun r => uploadedTimes r.calls) =
      (List.range es.length).map (fun (n : Nat) => ((n : ℚ) + 1) / 60) ∧
    ((runFrames FullscreenQuadApp.OnRunning es (FullscreenQuadApp.OnInit e0 s0).app).flatMap
        (fun r => uploadedTimes r.calls)).Pairwise (fun a c => a < c) := by
  have h0 : (FullscreenQuadApp.OnInit e0 s0).app.params.time = 0 := by
    simp only [FullscreenQuadApp.OnInit]
    norm_num
  have hup : (runFrames FullscreenQuadApp.OnRunning es
        (FullscreenQuadApp.OnInit e0 s0).app).flatMap (fun r => uploadedTimes r.calls) =
      (List.range es.length).map (fun (n : Nat) => ((n : ℚ) + 1) / 60) := by
    rw [FullscreenQuadApp.uploads_from, h0]
    simp
  refine ⟨h0, (FullscreenQuadApp.uploaded e q).2, ?_, hup, ?_⟩
  · simp only [FullscreenQuadApp.OnRunning]
    norm_num
  · rw [hup, List.pairwise_map]
    refine List.Pairwise.imp ?_ (List.pairwise_lt_range es.length)
    intro a c hac
    have : (a : ℚ) < (c : ℚ) := by exact_mod_cast hac
    linarith

end Oryol
